import Mathlib

/-!
Shallow embedding of the contenox/runtime worker (src/workers/) in Lean 4,
with theorems checking the natural-language specification against the code.

Python strings are modelled as `List Char` (a Python `str` is a sequence of
code points), byte payloads as `List Nat` (each entry < 256 in practice),
and HTTP responses as a `status` code plus a `text` body.
-/

/-! ## Chunkers (src/workers/chunk.py) -/

/-- Python `range(start, stop, step)` for a positive step: the ascending list
`start, start+step, ...` of indices below `stop`. -/
def pyRange (start stop step : Nat) : List Nat :=
  if _h : start < stop ∧ 0 < step then
    start :: pyRange (start + step) stop step
  else
    []
termination_by stop - start
decreasing_by omega

/-- Python slice `text[i:j]` on a `List Char` (clamped at the ends, as in
Python). -/
def pySlice (text : List Char) (i j : Nat) : List Char :=
  (text.drop i).take (j - i)

/-- Method `SimpleChunk.chunk` from src/workers/chunk.py: for `i` in
`range(0, len(text), 256)` append `text[i:i+256]`. -/
def SimpleChunk_chunk (text : List Char) : List (List Char) :=
  (pyRange 0 text.length 256).map (fun i => pySlice text i (i + 256))

/-- Method `TextParser.chunk` from src/workers/plaintext.py: identical fixed-window
loop, `text[i:i+256]` for `i` in `range(0, len(text), 256)`. -/
def TextParser_chunk (text : List Char) : List (List Char) :=
  (pyRange 0 text.length 256).map (fun i => pySlice text i (i + 256))

/-- Python `str.rfind(' ')`: index of the last space, as `some i`;
the Python sentinel `-1` is modelled as `none`. -/
def rfindSpace : List Char → Option Nat
  | [] => none
  | c :: rest =>
    match rfindSpace rest with
    | some i => some (i + 1)
    | none => if c = ' ' then some 0 else none

/-- The `while current < len(text)` loop of `BetterChunk.chunk`
(src/workers/chunk.py): sliding window of `max_window_size = 512`,
`step_size = 256`, `adjustment_threshold = 20`, snapping the window end to
just after the last space when that space is within the threshold of the
window edge. -/
def betterChunkLoop (text : List Char) (current : Nat) : List (List Char) :=
  if _h : current < text.length then
    let e := min (current + 512) text.length
    let chunk := pySlice text current e
    match rfindSpace chunk with
    | some last_space =>
      if chunk.length - last_space ≤ 20 then
        let adjusted_end := current + last_space + 1
        pySlice text current adjusted_end :: betterChunkLoop text adjusted_end
      else
        chunk :: betterChunkLoop text (current + 256)
    | none => chunk :: betterChunkLoop text (current + 256)
  else
    []
termination_by text.length - current
decreasing_by
  all_goals omega

/-- Method `BetterChunk.chunk` from src/workers/chunk.py: run the sliding-window
loop from cursor 0. -/
def BetterChunk_chunk (text : List Char) : List (List Char) :=
  betterChunkLoop text 0

/-! ## Plain-text parser (src/workers/plaintext.py)

`TextParser.parse` runs `raw_data.decode("utf-8", errors="replace")`.
The CPython UTF-8 decoder is modelled byte-exactly below: `decode strict bs`
walks the byte list, emitting one scalar value per well-formed sequence
(lead-byte ranges C2-DF, E0-EF with the E0/ED continuation restrictions,
F0-F4 with the F0/F4 restrictions, as in the Unicode table CPython
implements).  With `strict = true` (errors="strict") a malformed sequence
is a decoding error; with `strict = false` (errors="replace", the mode the
source uses) each maximal invalid subpart becomes one U+FFFD and decoding
continues, and a truncated sequence at end of input becomes one U+FFFD. -/

/-- U+FFFD REPLACEMENT CHARACTER, what errors="replace" substitutes. -/
def replacementChar : Char := Char.ofNat 0xFFFD

/-- CPython `bytes.decode("utf-8", errors=...)`; `strict = false` is
errors="replace". -/
def decode (strict : Bool) : List Nat → Except String (List Char)
  | [] => .ok []
  | b :: rest =>
    if b < 0x80 then
      (decode strict rest).map (fun s => Char.ofNat b :: s)
    else if b < 0xC2 then
      if strict then .error ("invalid start byte")
      else (decode strict rest).map (fun s => replacementChar :: s)
    else if b ≤ 0xDF then
      match rest with
      | [] =>
        if strict then .error ("unexpected end of data") else .ok [replacementChar]
      | c1 :: rest2 =>
        if 0x80 ≤ c1 ∧ c1 ≤ 0xBF then
          (decode strict rest2).map
            (fun s => Char.ofNat ((b - 0xC0) * 0x40 + (c1 - 0x80)) :: s)
        else
          if strict then .error ("invalid continuation byte")
          else (decode strict (c1 :: rest2)).map (fun s => replacementChar :: s)
    else if b ≤ 0xEF then
      match rest with
      | [] => if strict then .error ("unexpected end of data") else .ok [replacementChar]
      | c1 :: rest2 =>
        if (if b = 0xE0 then 0xA0 else 0x80) ≤ c1 ∧ c1 ≤ (if b = 0xED then 0x9F else 0xBF) then
          match rest2 with
          | [] => if strict then .error ("unexpected end of data") else .ok [replacementChar]
          | c2 :: rest3 =>
            if 0x80 ≤ c2 ∧ c2 ≤ 0xBF then
              (decode strict rest3).map
                (fun s => Char.ofNat ((b - 0xE0) * 0x1000 + (c1 - 0x80) * 0x40 + (c2 - 0x80)) :: s)
            else
              if strict then .error ("invalid continuation byte")
              else (decode strict (c2 :: rest3)).map (fun s => replacementChar :: s)
        else
          if strict then .error ("invalid continuation byte")
          else (decode strict (c1 :: rest2)).map (fun s => replacementChar :: s)
    else if b ≤ 0xF4 then
      match rest with
      | [] => if strict then .error ("unexpected end of data") else .ok [replacementChar]
      | c1 :: rest2 =>
        if (if b = 0xF0 then 0x90 else 0x80) ≤ c1 ∧ c1 ≤ (if b = 0xF4 then 0x8F else 0xBF) then
          match rest2 with
          | [] => if strict then .error ("unexpected end of data") else .ok [replacementChar]
          | c2 :: rest3 =>
            if 0x80 ≤ c2 ∧ c2 ≤ 0xBF then
              match rest3 with
              | [] => if strict then .error ("unexpected end of data") else .ok [replacementChar]
              | c3 :: rest4 =>
                if 0x80 ≤ c3 ∧ c3 ≤ 0xBF then
                  (decode strict rest4).map
                    (fun s => Char.ofNat ((b - 0xF0) * 0x40000 + (c1 - 0x80) * 0x1000
                      + (c2 - 0x80) * 0x40 + (c3 - 0x80)) :: s)
                else
                  if strict then .error ("invalid continuation byte")
                  else (decode strict (c3 :: rest4)).map (fun s => replacementChar :: s)
            else
              if strict then .error ("invalid continuation byte")
              else (decode strict (c2 :: rest3)).map (fun s => replacementChar :: s)
        else
          if strict then .error ("invalid continuation byte")
          else (decode strict (c1 :: rest2)).map (fun s => replacementChar :: s)
    else
      if strict then .error ("invalid start byte")
      else (decode strict rest).map (fun s => replacementChar :: s)
termination_by l => l.length
decreasing_by all_goals (simp only [List.length_cons]; omega)

/-- Method `TextParser.parse` from src/workers/plaintext.py:
`raw_data.decode("utf-8", errors="replace")`.  A raised decoding error is
modelled as `Except.error`; with errors="replace" no error path exists. -/
def TextParser_parse (raw_data : List Nat) : Except String (List Char) :=
  decode false raw_data

/-- Method `TextParser.supported_types` from src/workers/plaintext.py. -/
def TextParser_supported_types : List String :=
  ["vectorize_text/plain; charset=utf-8"]

/-! ## AuthSession (src/workers/worker.py, lines 6-55)

`AuthSession._request` sends the request, and when the response has status
401, or status 400 with "token is expired" contained in the lowercased
body, it re-authenticates (`refresh_token`, one `login`) and re-sends once
with `retry=False`.  The HTTP world is an oracle `responses : Nat → Response`
giving the response to the i-th send; the trace counts logins and sends and
records the response returned to the caller. -/

/-- An HTTP response: `status_code` and `text` body. -/
structure Response where
  status : Nat
  text : String
deriving DecidableEq

/-- Bool-valued substring test: does `needle` occur inside the second list? -/
def hasSubstr (needle : List Char) : List Char → Bool
  | [] => needle.isEmpty
  | c :: rest => needle.isPrefixOf (c :: rest) || hasSubstr needle rest

/-- Python `"token is expired" in response.text.lower()` (ASCII lowering,
which covers the English token the code looks for). -/
def tokenExpiredSignal (body : String) : Bool :=
  hasSubstr ("token is expired".toList) (body.toList.map Char.toLower)

/-- The credential-expiry test of `AuthSession._request`:
`status == 401 or (status == 400 and "token is expired" in text.lower())`. -/
def isExpiryResponse (r : Response) : Bool :=
  r.status == 401 || (r.status == 400 && tokenExpiredSignal r.text)

/-- What one call to `AuthSession._request` did: how many times `login` ran,
how many HTTP sends of the original request happened, and the response
handed back to the caller. -/
structure AuthTrace where
  logins : Nat
  sends : Nat
  returned : Response
deriving DecidableEq

/-- Method `AuthSession._request` from src/workers/worker.py: send request `i`;
on an expiry response, if `retry` holds, `refresh_token` (one login) and
recurse once with `retry = false`; otherwise return the response. -/
def authRequest (responses : Nat → Response) (retry : Bool) (i : Nat) : AuthTrace :=
  let response := responses i
  if isExpiryResponse response then
    if retry then
      let t := authRequest responses false (i + 1)
      { logins := t.logins + 1, sends := t.sends + 1, returned := t.returned }
    else { logins := 0, sends := 1, returned := response }
  else { logins := 0, sends := 1, returned := response }
termination_by (if retry then 1 else 0)
decreasing_by simp [*]

/-! ## JobPipeline and one worker cycle (src/workers/worker.py, lines 58-197)

`Steps` methods translate HTTP responses into results or raised
exceptions (`Except.error` carries the exception message built by the
source).  A `WorkerEnv` fixes the responses the external service gives to
the lease of this run, download, index and mark-failed requests, plus the JSON
body of a 201 lease response.  `run` mirrors the `try/except` of
`run(worker_steps)` and returns a trace of the observable effects. -/

/-- A leased job as the worker reads it: `job["id"]` (may be JSON null)
and `job["entityId"]`. -/
structure Job where
  id : Option String
  entityId : String
deriving DecidableEq

/-- Behaviour of the remote service for one `run` call. -/
structure WorkerEnv where
  leaseResp : Response
  leaseJob : Job
  fetchResp : Response
  fetchContent : List Nat
  ingestResp : Response
  markFailedResp : Response

/-- Method `Steps.lease_job`: 404 means no job (`none`), any other non-201 status
raises, 201 returns the job from the body. -/
def lease_job (env : WorkerEnv) : Except String (Option Job) :=
  if env.leaseResp.status = 404 then .ok none
  else if env.leaseResp.status ≠ 201 then
    .error ("Failed to lease job: " ++ toString env.leaseResp.status ++ " "
      ++ env.leaseResp.text)
  else .ok (some env.leaseJob)

/-- Method `Steps.fetch_file`: non-200 raises, 200 returns the raw bytes. -/
def fetch_file (env : WorkerEnv) : Except String (List Nat) :=
  if env.fetchResp.status ≠ 200 then
    .error ("Failed to fetch file: " ++ toString env.fetchResp.status ++ " "
      ++ env.fetchResp.text)
  else .ok env.fetchContent

/-- Method `Steps.mark_failed`: the PATCH is sent; a non-204 status raises. -/
def mark_failed (env : WorkerEnv) : Except String Unit :=
  if env.markFailedResp.status ≠ 204 then
    .error ("Failed to mark job failed: " ++ toString env.markFailedResp.status ++ " "
      ++ env.markFailedResp.text)
  else .ok ()

/-- Method `Steps.ingest`: any status outside {200, 204} raises. -/
def ingest (env : WorkerEnv) : Except String Unit :=
  if env.ingestResp.status = 200 ∨ env.ingestResp.status = 204 then .ok ()
  else
    .error ("Failed to ingest text: " ++ toString env.ingestResp.status ++ " "
      ++ env.ingestResp.text)

/-- Observable effects of one `run(worker_steps)` call: how many file
downloads happened, the argument lists of the `ingest` calls
(chunk batch and `replace` flag), the `mark_failed` calls (job id and
reason), whether the no-job sleep ran, and the exception escaping `run`
(`none` when `run` returns normally). -/
structure RunTrace where
  fetchCalls : Nat
  ingestCalls : List (List (List Char) × Bool)
  markFailedCalls : List (String × String)
  slept : Bool
  raised : Option String
deriving DecidableEq

/-- The `except Exception as e` block of `run`: print, and when a job id
was obtained, call `mark_failed(job_id, reason=str(e))`.  The caught
exception is not re-raised; only a failure of `mark_failed` itself
escapes. -/
def runExcept (env : WorkerEnv) (job_id : Option String) (e : String)
    (fetchCalls : Nat) (ingestCalls : List (List (List Char) × Bool)) : RunTrace :=
  match job_id with
  | none =>
    { fetchCalls := fetchCalls, ingestCalls := ingestCalls,
      markFailedCalls := [], slept := false, raised := none }
  | some jid =>
    match mark_failed env with
    | .ok _ =>
      { fetchCalls := fetchCalls, ingestCalls := ingestCalls,
        markFailedCalls := [(jid, e)], slept := false, raised := none }
    | .error e2 =>
      { fetchCalls := fetchCalls, ingestCalls := ingestCalls,
        markFailedCalls := [(jid, e)], slept := false, raised := some e2 }

/-- Function `run(worker_steps)` from src/workers/worker.py for a worker built on
`TextParser`: lease; on no job (or a null job id) sleep and return; else
fetch, parse, chunk, ingest; any stage exception goes through the
`except` block (`runExcept`). -/
def run (env : WorkerEnv) : RunTrace :=
  match lease_job env with
  | .error e => runExcept env none e 0 []
  | .ok none =>
    { fetchCalls := 0, ingestCalls := [], markFailedCalls := [],
      slept := true, raised := none }
  | .ok (some job) =>
    match job.id with
    | none =>
      { fetchCalls := 0, ingestCalls := [], markFailedCalls := [],
        slept := true, raised := none }
    | some job_id =>
      let upsert := job.entityId == "update"
      match fetch_file env with
      | .error e => runExcept env (some job_id) e 1 []
      | .ok raw_data =>
        match TextParser_parse raw_data with
        | .error e => runExcept env (some job_id) e 1 []
        | .ok parsed =>
          let chunks := TextParser_chunk parsed
          match ingest env with
          | .error e => runExcept env (some job_id) e 1 [(chunks, upsert)]
          | .ok _ =>
            { fetchCalls := 1, ingestCalls := [(chunks, upsert)],
              markFailedCalls := [], slept := false, raised := none }

/-! ## Helper lemmas about the chunkers -/

/-- If `rfindSpace` reports an index, that index is inside the list. -/
theorem rfindSpace_lt_length :
    ∀ (l : List Char) (i : Nat), rfindSpace l = some i → i < l.length := by
  intro l
  induction l with
  | nil => intro i h; simp [rfindSpace] at h
  | cons c rest ih =>
    intro i h
    rw [rfindSpace] at h
    rcases hr : rfindSpace rest with _ | j
    · simp only [hr] at h
      split at h
      · simp only [Option.some.injEq] at h
        simp [← h]
      · exact absurd h (by simp)
    · simp only [hr, Option.some.injEq] at h
      have := ih j hr
      simp only [List.length_cons]
      omega

/-- A slice starting inside the list with a positive extent is non-empty. -/
theorem pySlice_ne_nil (t : List Char) (i j : Nat) (h1 : i < t.length) (h2 : i < j) :
    pySlice t i j ≠ [] := by
  unfold pySlice
  intro hcon
  rw [List.take_eq_nil_iff] at hcon
  rcases hcon with h | h
  · omega
  · rw [List.drop_eq_nil_iff] at h; omega

/-- A slice whose right end reaches past the list is the whole suffix from `i`. -/
theorem pySlice_suffix (t : List Char) (i j : Nat) (h1 : t.length ≤ j) :
    pySlice t i j = t.drop i := by
  unfold pySlice
  exact List.take_of_length_le (by simp; omega)

/-- Invariant of the sliding-window loop: starting anywhere inside the text,
every produced chunk is non-empty and the final chunk is the suffix of the
text from some cursor position (so it ends at offset `text.length`). -/
theorem betterChunkLoop_invariants (t : List Char) :
    ∀ n c, c < t.length → t.length ≤ c + n →
      (∀ ch ∈ betterChunkLoop t c, ch ≠ []) ∧
      ∃ d, c ≤ d ∧ d < t.length ∧ (betterChunkLoop t c).getLast? = some (t.drop d) := by
  intro n
  induction n with
  | zero => intro c h1 h2; omega
  | succ n ih =>
    intro c h1 h2
    rw [betterChunkLoop, dif_pos h1]
    simp only
    rcases hls : rfindSpace (pySlice t c (min (c + 512) t.length)) with _ | ls
    · simp only [hls]
      have hne : pySlice t c (min (c + 512) t.length) ≠ [] :=
        pySlice_ne_nil t c _ h1 (by omega)
      by_cases hnext : c + 256 < t.length
      · obtain ⟨ihne, d, hd1, hd2, hd3⟩ := ih (c + 256) hnext (by omega)
        constructor
        · intro ch hch
          rcases List.mem_cons.mp hch with h | h
          · rw [h]; exact hne
          · exact ihne ch h
        · refine ⟨d, by omega, hd2, ?_⟩
          rw [List.getLast?_cons, hd3]
          simp
      · have hstop : betterChunkLoop t (c + 256) = [] := by
          rw [betterChunkLoop, dif_neg (by omega)]
        rw [hstop]
        have hfull : pySlice t c (min (c + 512) t.length) = t.drop c :=
          pySlice_suffix t c _ (by omega)
        constructor
        · intro ch hch
          simp only [List.mem_singleton] at hch
          rw [hch]; exact hne
        · exact ⟨c, le_refl c, h1, by rw [hfull]; simp⟩
    · simp only [hls]
      have hlslt : ls < (pySlice t c (min (c + 512) t.length)).length :=
        rfindSpace_lt_length _ ls hls
      have hchlen : (pySlice t c (min (c + 512) t.length)).length
          = min (c + 512) t.length - c := by
        simp [pySlice]
        omega
      by_cases hcond : (pySlice t c (min (c + 512) t.length)).length - ls ≤ 20
      · rw [if_pos hcond]
        have hne : pySlice t c (c + ls + 1) ≠ [] :=
          pySlice_ne_nil t c _ h1 (by omega)
        have hle : c + ls + 1 ≤ t.length := by omega
        by_cases hnext : c + ls + 1 < t.length
        · obtain ⟨ihne, d, hd1, hd2, hd3⟩ := ih (c + ls + 1) hnext (by omega)
          constructor
          · intro ch hch
            rcases List.mem_cons.mp hch with h | h
            · rw [h]; exact hne
            · exact ihne ch h
          · refine ⟨d, by omega, hd2, ?_⟩
            rw [List.getLast?_cons, hd3]
            simp
        · have hstop : betterChunkLoop t (c + ls + 1) = [] := by
            rw [betterChunkLoop, dif_neg (by omega)]
          rw [hstop]
          have hfull : pySlice t c (c + ls + 1) = t.drop c :=
            pySlice_suffix t c _ (by omega)
          constructor
          · intro ch hch
            simp only [List.mem_singleton] at hch
            rw [hch]; exact hne
          · exact ⟨c, le_refl c, h1, by rw [hfull]; simp⟩
      · rw [if_neg hcond]
        have hne : pySlice t c (min (c + 512) t.length) ≠ [] :=
          pySlice_ne_nil t c _ h1 (by omega)
        by_cases hnext : c + 256 < t.length
        · obtain ⟨ihne, d, hd1, hd2, hd3⟩ := ih (c + 256) hnext (by omega)
          constructor
          · intro ch hch
            rcases List.mem_cons.mp hch with h | h
            · rw [h]; exact hne
            · exact ihne ch h
          · refine ⟨d, by omega, hd2, ?_⟩
            rw [List.getLast?_cons, hd3]
            simp
        · have hstop : betterChunkLoop t (c + 256) = [] := by
            rw [betterChunkLoop, dif_neg (by omega)]
          rw [hstop]
          have hfull : pySlice t c (min (c + 512) t.length) = t.drop c :=
            pySlice_suffix t c _ (by omega)
          constructor
          · intro ch hch
            simp only [List.mem_singleton] at hch
            rw [hch]; exact hne
          · exact ⟨c, le_refl c, h1, by rw [hfull]; simp⟩

/-- Concatenating the fixed-window chunks emitted from index `i` onwards
yields the suffix of the text from `i`. -/
theorem simpleChunk_flatten_aux (t : List Char) :
    ∀ n i, t.length ≤ i + n →
      ((pyRange i t.length 256).map (fun j => pySlice t j (j + 256))).flatten = t.drop i := by
  intro n
  induction n with
  | zero =>
    intro i hi
    rw [pyRange, dif_neg (by omega)]
    simp [List.drop_eq_nil_of_le (by omega : t.length ≤ i)]
  | succ n ih =>
    intro i hi
    by_cases h : i < t.length
    · rw [pyRange, dif_pos ⟨h, by omega⟩]
      simp only [List.map_cons, List.flatten_cons]
      rw [ih (i + 256) (by omega)]
      unfold pySlice
      have h1 : i + 256 - i = 256 := by omega
      have h2 : t.drop (i + 256) = (t.drop i).drop 256 := by rw [List.drop_drop]
      rw [h1, h2, List.take_append_drop]
    · rw [pyRange, dif_neg (by omega)]
      simp [List.drop_eq_nil_of_le (by omega : t.length ≤ i)]

/-! ## Helper lemmas about the decoder and substrings -/

/-- Mapping over an `Except` preserves success. -/
theorem except_isOk_map {ε α β : Type} (f : α → β) (x : Except ε α) :
    (x.map f).isOk = x.isOk := by
  cases x <;> rfl

/-- Constructor `Except.ok` is a success. -/
theorem except_isOk_ok {ε α : Type} (a : α) : (Except.ok a : Except ε α).isOk = true := rfl

/-- errors="replace" decoding succeeds on every byte list. -/
theorem decode_replace_isOk : ∀ (l : List Nat), (decode false l).isOk = true := by
  intro l
  induction l using decode.induct false
  all_goals (try (exact absurd ‹false = true› Bool.false_ne_true))
  all_goals (rw [decode.eq_def]; simp only [dite_eq_ite] at *; simp [*, except_isOk_map, except_isOk_ok])

/-- A successful decode as an explicit result value. -/
theorem decode_replace_exists_ok (l : List Nat) :
    ∃ s, decode false l = .ok s := by
  have h := decode_replace_isOk l
  cases hd : decode false l with
  | ok s => exact ⟨s, rfl⟩
  | error e => rw [hd] at h; exact absurd h (by simp [Except.isOk, Except.toBool])

/-- A list is a substring of any list it is a prefix of. -/
theorem hasSubstr_of_isPrefixOf (needle hay : List Char)
    (hp : needle.isPrefixOf hay = true) : hasSubstr needle hay = true := by
  cases hay with
  | nil =>
    rw [List.isPrefixOf_iff_prefix] at hp
    rw [List.prefix_nil] at hp
    rw [hp]
    rfl
  | cons c rest =>
    rw [hasSubstr, hp]
    rfl

/-- A list is a prefix of itself extended by anything. -/
theorem isPrefixOf_append (l r : List Char) : l.isPrefixOf (l ++ r) = true := by
  rw [List.isPrefixOf_iff_prefix]
  exact ⟨r, rfl⟩

/-- The next chunk after a prefix match is still a prefix match. -/
theorem isPrefixOf_trans_append (l p r : List Char) (h : l.isPrefixOf p = true) :
    l.isPrefixOf (p ++ r) = true := by
  rw [List.isPrefixOf_iff_prefix] at *
  exact h.trans ⟨r, rfl⟩

/-! ## Claim theorems -/

/-- C2: the claim that every text of length at most 512 yields exactly one
chunk equal to the text from both chunkers is false: on `"a b"` (length 3)
the sliding-window chunker snaps at the space and returns two chunks
`["a ", "b"]`. -/
theorem short_text_single_chunk_cex :
    ¬ (∀ t : List Char, t.length ≤ 512 →
        SimpleChunk_chunk t = [t] ∧ BetterChunk_chunk t = [t]) := by
  intro h
  have hb := (h ['a', ' ', 'b'] (by decide)).2
  have hev : BetterChunk_chunk ['a', ' ', 'b'] = [['a', ' '], ['b']] := by
    simp [BetterChunk_chunk, betterChunkLoop, pySlice, rfindSpace]
  rw [hev] at hb
  exact absurd hb (by decide)

/-- C2 amended: for every non-empty text of length at most 256 in which no
space lies within 20 characters of the end (so the boundary snap cannot
fire), the fixed-window and the sliding-window chunker both return exactly
one chunk equal to the whole text. -/
theorem short_text_single_chunk_amended (t : List Char) (h0 : t ≠ [])
    (h1 : t.length ≤ 256)
    (h2 : ∀ ls, rfindSpace t = some ls → 20 < t.length - ls) :
    SimpleChunk_chunk t = [t] ∧ BetterChunk_chunk t = [t] := by
  have hpos : 0 < t.length := List.length_pos.mpr h0
  constructor
  · unfold SimpleChunk_chunk
    rw [pyRange, dif_pos ⟨hpos, by omega⟩, pyRange, dif_neg (by omega)]
    simp only [List.map_cons, List.map_nil, List.cons.injEq, and_true]
    simp only [pySlice, Nat.zero_add, Nat.sub_zero, List.drop_zero]
    exact List.take_of_length_le (by omega)
  · unfold BetterChunk_chunk
    rw [betterChunkLoop, dif_pos hpos]
    simp only
    have hfull : pySlice t 0 (min (0 + 512) t.length) = t := by
      simp only [pySlice, Nat.zero_add, Nat.sub_zero, List.drop_zero]
      exact List.take_of_length_le (by omega)
    simp only [hfull]
    rcases hr : rfindSpace t with _ | ls
    · simp only [hr]
      rw [betterChunkLoop, dif_neg (by omega)]
    · simp only [hr]
      rw [if_neg (by have := h2 ls hr; omega)]
      rw [betterChunkLoop, dif_neg (by omega)]

/-- Witness for the amended C2 at the spaceless text `"hi"`. -/
theorem short_text_single_chunk_amended_witness :
    SimpleChunk_chunk ['h', 'i'] = [['h', 'i']] ∧
    BetterChunk_chunk ['h', 'i'] = [['h', 'i']] :=
  short_text_single_chunk_amended ['h', 'i'] (by decide) (by decide)
    (by
      intro ls hls
      rw [(by decide : rfindSpace ['h', 'i'] = none)] at hls
      exact Option.noConfusion hls)

/-- C4: every chunk the sliding-window chunker produces is non-empty, and
for non-empty input the chunk list is non-empty and its last element is a
suffix of the input (it ends exactly at offset `len(t)`). -/
theorem betterChunk_nonempty_and_last_suffix (t : List Char) :
    (∀ ch ∈ BetterChunk_chunk t, ch ≠ []) ∧
    (t ≠ [] → ∃ d, d < t.length ∧
      (BetterChunk_chunk t).getLast? = some (t.drop d)) := by
  by_cases h : t = []
  · subst h
    constructor
    · intro ch hch
      rw [BetterChunk_chunk, betterChunkLoop, dif_neg (by simp)] at hch
      simp at hch
    · intro h0
      exact absurd rfl h0
  · have hpos : 0 < t.length := List.length_pos.mpr h
    obtain ⟨h1, d, _, hd2, hd3⟩ := betterChunkLoop_invariants t t.length 0 hpos (by omega)
    exact ⟨h1, fun _ => ⟨d, hd2, hd3⟩⟩

/-- Witness for C4 at `"a b"`. -/
theorem betterChunk_nonempty_and_last_suffix_witness :
    (∀ ch ∈ BetterChunk_chunk ['a', ' ', 'b'], ch ≠ []) ∧
    (∃ d, d < (['a', ' ', 'b'] : List Char).length ∧
      (BetterChunk_chunk ['a', ' ', 'b']).getLast? =
        some ((['a', ' ', 'b'] : List Char).drop d)) :=
  ⟨(betterChunk_nonempty_and_last_suffix ['a', ' ', 'b']).1,
   (betterChunk_nonempty_and_last_suffix ['a', ' ', 'b']).2 (by decide)⟩

/-- C5: at any cursor `c` inside the text where the window candidate has
its last space within `boundaryThreshold = 20` of the window edge, the loop
emits exactly `text[c : c + lastSpace + 1]` (ending one character after the
space), the next call continues at `adjustedEnd = c + lastSpace + 1`, and
the emitted chunk length is `adjustedEnd - c`, so the next chunk starts
exactly where this one ends (no overlap after a snap). -/
theorem boundary_snap (t : List Char) (c ls : Nat) (h1 : c < t.length)
    (hls : rfindSpace (pySlice t c (min (c + 512) t.length)) = some ls)
    (hcond : (pySlice t c (min (c + 512) t.length)).length - ls ≤ 20) :
    betterChunkLoop t c =
      pySlice t c (c + ls + 1) :: betterChunkLoop t (c + ls + 1) ∧
    (pySlice t c (c + ls + 1)).length = (c + ls + 1) - c := by
  have hlslt := rfindSpace_lt_length _ ls hls
  have hchlen : (pySlice t c (min (c + 512) t.length)).length
      = min (c + 512) t.length - c := by
    simp [pySlice]
    omega
  constructor
  · rw [betterChunkLoop, dif_pos h1]
    simp only [hls]
    rw [if_pos hcond]
  · simp only [pySlice, List.length_take, List.length_drop]
    omega

/-- Witness for C5 at `"a b"`, cursor 0, last space at index 1. -/
theorem boundary_snap_witness :
    betterChunkLoop ['a', ' ', 'b'] 0 =
      pySlice ['a', ' ', 'b'] 0 (0 + 1 + 1) :: betterChunkLoop ['a', ' ', 'b'] (0 + 1 + 1) ∧
    (pySlice ['a', ' ', 'b'] 0 (0 + 1 + 1)).length = (0 + 1 + 1) - 0 :=
  boundary_snap ['a', ' ', 'b'] 0 1 (by decide) (by decide) (by decide)

/-- C6: concatenating the fixed-window chunks in order reconstructs the
input exactly — no overlap, no loss. -/
theorem simpleChunk_flatten_eq (t : List Char) : (SimpleChunk_chunk t).flatten = t := by
  unfold SimpleChunk_chunk
  have h := simpleChunk_flatten_aux t t.length 0 (by omega)
  simpa using h

/-- C9: plain-text parsing with errors="replace" succeeds on every byte
sequence (invalid UTF-8 never raises), and `supported_types` is exactly
the one content type `"vectorize_text/plain; charset=utf-8"`. -/
theorem parse_never_fails_and_supported_types :
    (∀ bs : List Nat, (TextParser_parse bs).isOk = true) ∧
    TextParser_supported_types = ["vectorize_text/plain; charset=utf-8"] :=
  ⟨fun bs => decode_replace_isOk bs, rfl⟩

/-- A non-retrying `_request` performs one send, no login, and returns the
response as-is, whatever its status. -/
theorem authRequest_no_retry (responses : Nat → Response) (i : Nat) :
    authRequest responses false i =
      { logins := 0, sends := 1, returned := responses i } := by
  rw [authRequest]
  by_cases h : isExpiryResponse (responses i) = true <;> simp [h]

/-- C3: when the first response signals credential expiry (401, or 400 with
an expired-token body), `_request` performs exactly one re-login and one
re-send and returns the second response to the caller — even when that
second response again signals expiry (no further login or retry). -/
theorem auth_expiry_retries_once (responses : Nat → Response)
    (h : isExpiryResponse (responses 0) = true) :
    authRequest responses true 0 =
      { logins := 1, sends := 2, returned := responses 1 } ∧
    (isExpiryResponse (responses 1) = true →
      (authRequest responses true 0).returned = responses 1 ∧
      (authRequest responses true 0).logins = 1) := by
  have hmain : authRequest responses true 0 =
      { logins := 1, sends := 2, returned := responses 1 } := by
    rw [authRequest]
    simp only [h, if_true]
    rw [authRequest_no_retry]
  exact ⟨hmain, fun _ => by rw [hmain]; exact ⟨rfl, rfl⟩⟩

/-- Witness for C3: first response is 400 with an expired-token body, the
retried request gets a plain 401 which is handed back to the caller. -/
theorem auth_expiry_retries_once_witness :
    authRequest
      (fun i => if i = 0 then { status := 400, text := "The Token Is EXPIRED" }
                else { status := 401, text := "" }) true 0 =
      { logins := 1, sends := 2, returned := { status := 401, text := "" } } := by
  have h := auth_expiry_retries_once
    (fun i => if i = 0 then { status := 400, text := "The Token Is EXPIRED" }
              else { status := 401, text := "" }) (by decide)
  simpa using h.1

/-! Concrete environments used by witnesses and counterexamples. -/

/-- Environment where the lease succeeds with job id "j1" but the file
download answers HTTP 500; marking failed succeeds with 204. -/
def envFetch500 : WorkerEnv :=
  { leaseResp := { status := 201, text := "" },
    leaseJob := { id := some "j1", entityId := "f1" },
    fetchResp := { status := 500, text := "boom" },
    fetchContent := [],
    ingestResp := { status := 204, text := "" },
    markFailedResp := { status := 204, text := "" } }

/-- Environment where the lease request answers 404 (no job). -/
def envLease404 : WorkerEnv :=
  { leaseResp := { status := 404, text := "" },
    leaseJob := { id := some "j1", entityId := "f1" },
    fetchResp := { status := 200, text := "" },
    fetchContent := [],
    ingestResp := { status := 204, text := "" },
    markFailedResp := { status := 204, text := "" } }

/-- Environment where the lease answers 201 but the job body has null id. -/
def envNullId : WorkerEnv :=
  { leaseResp := { status := 201, text := "" },
    leaseJob := { id := none, entityId := "f1" },
    fetchResp := { status := 200, text := "" },
    fetchContent := [],
    ingestResp := { status := 204, text := "" },
    markFailedResp := { status := 204, text := "" } }

/-- C1 counterexample: with a leased job "j1" and a fetch failure (HTTP 500,
`mark_failed` succeeding), `run` records the single `mark_failed` call but
returns normally — the exception is swallowed, not re-raised, so the
claim part "then re-raises the exception to the WorkerLoop" is false. -/
theorem run_reraise_cex :
    (run envFetch500).markFailedCalls = [("j1", "Failed to fetch file: 500 boom")] ∧
    (run envFetch500).raised = none := by
  constructor <;> rfl

/-- Shared fact: a 201 lease with the job body of the env. -/
theorem lease_job_201 (env : WorkerEnv) (h201 : env.leaseResp.status = 201) :
    lease_job env = .ok (some env.leaseJob) := by
  rw [lease_job, if_neg (by rw [h201]; omega), if_neg (by simp [h201])]

/-- C1 amended: when a job has been leased (201, non-null id) and a later
stage fails (fetch non-200, or ingest outside {200, 204}), `run` makes
exactly one `mark_failed(jobId, reason)` call, with exactly the leased job
id and exactly the exception message of the failing stage as the reason;
but the exception is swallowed rather than re-raised (provided
`mark_failed` itself succeeds, `run` returns normally and the WorkerLoop
backoff never observes the failure). -/
theorem run_failure_single_mark_failed_no_reraise (env : WorkerEnv) (jid : String)
    (h201 : env.leaseResp.status = 201)
    (hid : env.leaseJob.id = some jid)
    (hmf204 : env.markFailedResp.status = 204)
    (hfail : env.fetchResp.status ≠ 200 ∨
      ¬(env.ingestResp.status = 200 ∨ env.ingestResp.status = 204)) :
    (run env).markFailedCalls =
      [(jid, if env.fetchResp.status = 200
             then "Failed to ingest text: " ++ toString env.ingestResp.status
               ++ " " ++ env.ingestResp.text
             else "Failed to fetch file: " ++ toString env.fetchResp.status
               ++ " " ++ env.fetchResp.text)] ∧
    (run env).raised = none := by
  have hl := lease_job_201 env h201
  have hmk : mark_failed env = .ok () := by
    rw [mark_failed, if_neg (by simp [hmf204])]
  by_cases hf : env.fetchResp.status = 200
  · rcases hfail with hbad | hi
    · exact absurd hf hbad
    · have hfe : fetch_file env = .ok env.fetchContent := by
        rw [fetch_file, if_neg (by simp [hf])]
      obtain ⟨parsed, hp⟩ := decode_replace_exists_ok env.fetchContent
      have hig : ingest env = .error ("Failed to ingest text: "
          ++ toString env.ingestResp.status ++ " " ++ env.ingestResp.text) := by
        rw [ingest, if_neg hi]
      simp [run, hl, hid, hfe, TextParser_parse, hp, hig, runExcept, hmk, hf]
  · have hfe : fetch_file env = .error ("Failed to fetch file: "
        ++ toString env.fetchResp.status ++ " " ++ env.fetchResp.text) := by
      rw [fetch_file, if_pos hf]
    simp [run, hl, hid, hfe, runExcept, hmk, hf]

/-- Witness for the amended C1 at the fetch-500 environment: the single
recorded call carries job id "j1" and the fetch-stage reason. -/
theorem run_failure_single_mark_failed_no_reraise_witness :
    (run envFetch500).markFailedCalls = [("j1", "Failed to fetch file: 500 boom")] ∧
    (run envFetch500).raised = none := by
  have h := run_failure_single_mark_failed_no_reraise envFetch500 "j1" rfl rfl rfl
    (Or.inl (by decide))
  exact ⟨by rw [h.1]; rfl, h.2⟩

/-- C7: when the lease succeeds with a job id and the file download answers
HTTP 500, `run` calls `ingest` never and `mark_failed` exactly once, with
the job id and a reason naming the fetch stage. -/
theorem fetch500_single_mark_failed_no_ingest (env : WorkerEnv) (jid : String)
    (h201 : env.leaseResp.status = 201)
    (hid : env.leaseJob.id = some jid)
    (h500 : env.fetchResp.status = 500) :
    (run env).ingestCalls = [] ∧
    ∃ r, (run env).markFailedCalls = [(jid, r)] ∧
      hasSubstr ("Failed to fetch file".toList) (r.toList) = true := by
  have hl := lease_job_201 env h201
  have hfe : fetch_file env = .error ("Failed to fetch file: "
      ++ toString env.fetchResp.status ++ " " ++ env.fetchResp.text) := by
    rw [fetch_file, if_pos (by rw [h500]; omega)]
  have hsub : hasSubstr ("Failed to fetch file".toList)
      (("Failed to fetch file: " ++ toString env.fetchResp.status ++ " "
        ++ env.fetchResp.text).toList) = true := by
    apply hasSubstr_of_isPrefixOf
    have h0 : ("Failed to fetch file".toList).isPrefixOf ("Failed to fetch file: ".toList)
        = true := by decide
    have h1 := isPrefixOf_trans_append _ _ (toString env.fetchResp.status).toList h0
    have h2 := isPrefixOf_trans_append _ _ " ".toList h1
    have h3 := isPrefixOf_trans_append _ _ env.fetchResp.text.toList h2
    simp only [String.toList, String.data_append] at h3 ⊢
    exact h3
  rcases hmf : mark_failed env with e2 | u
  · constructor
    · simp [run, hl, hid, hfe, runExcept, hmf]
    · exact ⟨_, by simp [run, hl, hid, hfe, runExcept, hmf], hsub⟩
  · constructor
    · simp [run, hl, hid, hfe, runExcept, hmf]
    · exact ⟨_, by simp [run, hl, hid, hfe, runExcept, hmf], hsub⟩

/-- Witness for C7 at the fetch-500 environment. -/
theorem fetch500_single_mark_failed_no_ingest_witness :
    (run envFetch500).ingestCalls = [] ∧
    ∃ r, (run envFetch500).markFailedCalls = [("j1", r)] ∧
      hasSubstr ("Failed to fetch file".toList) (r.toList) = true :=
  fetch500_single_mark_failed_no_ingest envFetch500 "j1" rfl rfl rfl

/-- C8: a 404 lease response (no job available) makes `run` sleep and
return normally, with no fetch, no ingest, no mark_failed and no raised
exception. -/
theorem lease404_idle (env : WorkerEnv) (h : env.leaseResp.status = 404) :
    run env = { fetchCalls := 0, ingestCalls := [], markFailedCalls := [],
                slept := true, raised := none } := by
  have hl : lease_job env = .ok none := by
    rw [lease_job, if_pos h]
  simp [run, hl]

/-- Witness for C8. -/
theorem lease404_idle_witness :
    run envLease404 = { fetchCalls := 0, ingestCalls := [], markFailedCalls := [],
                        slept := true, raised := none } :=
  lease404_idle envLease404 rfl

/-- C10: a 201 lease whose job body carries a null id is treated exactly
like the no-job case: `run` sleeps and returns normally, with no fetch, no
ingest, no mark_failed and no raised exception. -/
theorem lease_null_id_idle (env : WorkerEnv)
    (h201 : env.leaseResp.status = 201)
    (hid : env.leaseJob.id = none) :
    run env = { fetchCalls := 0, ingestCalls := [], markFailedCalls := [],
                slept := true, raised := none } := by
  have hl := lease_job_201 env h201
  simp [run, hl, hid]

/-- Witness for C10. -/
theorem lease_null_id_idle_witness :
    run envNullId = { fetchCalls := 0, ingestCalls := [], markFailedCalls := [],
                      slept := true, raised := none } :=
  lease_null_id_idle envNullId rfl rfl
